import Mathlib

/-!
Verification of the orchestration core of a multi-agent demo system.

The definitions below are a shallow embedding of the Python orchestrator
(`agents/orchestrator/main.py`): the agent registry and descriptor model,
the capability router `select_best_agent`, the dispatcher `call_agent`,
the queue-processor per-message step `process_message`, the discovery pass
`discover_all_agents`, and the response reader `get_responses`.

External effects are explicit parameters: remote HTTP behaviour is an
oracle function, the inbound message stream is a list of events, and the
queue primitives (complete / dead-letter / abandon / publish) are recorded
in the result values instead of being performed.
-/

/-- A JSON value, as produced by parsing a response body or a descriptor
document. Numbers are modelled as integers (no claim depends on floats). -/
inductive Json where
  | null
  | bool (b : Bool)
  | num (n : Int)
  | str (s : String)
  | arr (elems : List Json)
  | obj (fields : List (String × Json))

mutual

/-- Models the Python builtin textual rendering of a parsed JSON value
(dicts and lists printed with single-quoted strings), used where the code
falls back to serializing a whole response body. -/
def pyStr : Json → String
  | .null => "None"
  | .bool true => "True"
  | .bool false => "False"
  | .num n => toString n
  | .str s => "\x27" ++ s ++ "\x27"
  | .arr elems => "[" ++ pyStrElems elems ++ "]"
  | .obj fields => "\x7b" ++ pyStrFields fields ++ "\x7d"

/-- Elementwise rendering of a JSON array body. -/
def pyStrElems : List Json → String
  | [] => ""
  | [j] => pyStr j
  | j :: rest => pyStr j ++ ", " ++ pyStrElems rest

/-- Fieldwise rendering of a JSON object body. -/
def pyStrFields : List (String × Json) → String
  | [] => ""
  | [(k, v)] => "\x27" ++ k ++ "\x27: " ++ pyStr v
  | (k, v) :: rest => "\x27" ++ k ++ "\x27: " ++ pyStr v ++ ", " ++ pyStrFields rest

end

/-- Lookup of a key in a JSON object's field list, as `dict.get(key)`. -/
def jsonLookup (key : String) : List (String × Json) → Option Json
  | [] => none
  | (k, v) :: rest => if k == key then some v else jsonLookup key rest

/-- One skill entry of an agent descriptor: `{name, description, examples}`.
A field absent from the document is read with default `""` / `[]` by the
code, so absent fields are represented by those defaults. -/
structure Skill where
  name : String := ""
  description : String := ""
  examples : List String := []
deriving DecidableEq

/-- An agent card (descriptor document) as stored in the registry.
`name` is `none` when the document has no name field (the code then uses
`"unknown"`); `description` absent reads as `""`; `skills` is the
document's top-level skill list (ADK shape) and `capabilitiesSkills` the
nested `capabilities.skills` list (A2A shape), each `[]` when absent.
`discoveryUrl` and `baseUrl` are the `_discovery_url` / `_base_url`
entries added by the discovery pass (absent before discovery stores them). -/
structure AgentCard where
  name : Option String := none
  description : String := ""
  skills : List Skill := []
  capabilitiesSkills : List Skill := []
  discoveryUrl : Option String := none
  baseUrl : Option String := none
deriving DecidableEq

/-- The registry `discovered_agents`: agent name to card, in insertion
order (Python dicts preserve insertion order). -/
abbrev Registry := List (String × AgentCard)

/-- Key membership / read on the registry, as `name in discovered_agents`
and `discovered_agents[name]`. -/
def lookupAgent : Registry → String → Option AgentCard
  | [], _ => none
  | (k, v) :: rest, n => if k == n then some v else lookupAgent rest n

/-- Python dict assignment `discovered_agents[name] = card`: overwrite in
place when the key exists (keeping its position), else append. -/
def registryInsert (reg : Registry) (k : String) (v : AgentCard) : Registry :=
  match reg with
  | [] => [(k, v)]
  | (k0, v0) :: rest =>
    if k0 == k then (k, v) :: rest else (k0, v0) :: registryInsert rest k v

/-- Whether `needle` starts the character list `hay`. -/
def charsStartWith : List Char → List Char → Bool
  | [], _ => true
  | _ :: _, [] => false
  | a :: as, b :: bs => a == b && charsStartWith as bs

/-- Whether `needle` occurs as a contiguous run inside `hay`. -/
def charsContain (needle : List Char) : List Char → Bool
  | [] => charsStartWith needle []
  | b :: bs => charsStartWith needle (b :: bs) || charsContain needle bs

/-- Python substring membership `needle in hay`. -/
def containsSub (hay needle : String) : Bool :=
  charsContain needle.toList hay.toList

/-- ASCII lowercasing of one character, as Python `str.lower()` acts on
the ASCII range (all strings the code compares are ASCII). -/
def charLower (c : Char) : Char :=
  if 65 ≤ c.toNat ∧ c.toNat ≤ 90 then Char.ofNat (c.toNat + 32) else c

/-- Python `s.lower()`. -/
def pyLower (s : String) : String :=
  String.mk (s.toList.map charLower)

/-- Python whitespace, as stripped by `str.strip()`. -/
def isPySpace (c : Char) : Bool :=
  c == ' ' || c == '\t' || c == '\n' || c == '\r' || c == '\x0b' || c == '\x0c'

/-- Python `s.strip()`: drop leading and trailing whitespace. -/
def pyStrip (s : String) : String :=
  String.mk (((s.toList.dropWhile isPySpace).reverse.dropWhile isPySpace).reverse)

/-- Replace every left-to-right occurrence of the non-empty pattern `pat`
by `rep`, with fuel bounding the scan (`fuel` starts at the hay length,
and the hay shrinks by at least one character per step). -/
def replaceCharsAux (pat rep : List Char) : Nat → List Char → List Char
  | _, [] => []
  | 0, hay => hay
  | fuel + 1, c :: rest =>
    if pat ≠ [] ∧ charsStartWith pat (c :: rest) = true then
      rep ++ replaceCharsAux pat rep fuel (List.drop (pat.length - 1) rest)
    else c :: replaceCharsAux pat rep fuel rest

/-- Python `s.replace(pat, rep)` for a non-empty pattern. -/
def pyReplace (s pat rep : String) : String :=
  String.mk (replaceCharsAux pat.toList rep.toList s.toList.length s.toList)

/-- `any(keyword in task_lower for keyword in keywords)`. -/
def taskHasAny (taskLower : String) (keywords : List String) : Bool :=
  keywords.any (fun k => containsSub taskLower k)

/-- Trigger keywords of the burger category. -/
def burgerKeywords : List String := ["burger", "cheeseburger", "hamburger"]

/-- Trigger keywords of the pizza category. -/
def pizzaKeywords : List String := ["pizza", "pizzas", "margherita", "pepperoni"]

/-- Trigger keywords of the illustration category. -/
def illustrationKeywords : List String :=
  ["illustration", "illustrate", "draw", "image", "picture", "visual", "graphic"]

/-- Trigger keywords of the currency category. -/
def currencyKeywords : List String := ["currency", "exchange", "convert"]

/-- Trigger keywords of the travel category. -/
def travelKeywords : List String := ["restaurant", "attraction", "itinerary", "trip", "plan"]

/-- The per-skill rule chain of `select_best_agent` (the inner `for skill
in skills` body): illustration, currency, travel, burger, pizza, in that
order. Every branch returns the same agent, so the chain is its
disjunction. The travel rule tests only the skill name; the burger and
pizza rules additionally test the agent name. -/
def skill_match (taskLower nameLower : String) (sk : Skill) : Bool :=
  let sn := pyLower sk.name
  let sd := pyLower sk.description
  (taskHasAny taskLower illustrationKeywords &&
    (containsSub sn "illustrat" || containsSub sd "illustrat"))
  || (taskHasAny taskLower currencyKeywords &&
    (containsSub sn "currency" || containsSub sd "currency"))
  || (taskHasAny taskLower travelKeywords &&
    (containsSub sn "travel" || containsSub sn "restaurant" || containsSub sn "attraction"))
  || (taskHasAny taskLower burgerKeywords &&
    (containsSub sn "burger" || containsSub sd "burger" || containsSub nameLower "burger"))
  || (taskHasAny taskLower pizzaKeywords &&
    (containsSub sn "pizza" || containsSub sd "pizza" || containsSub nameLower "pizza"))

/-- The whole per-agent body of the routing loop: the three
name/description-level checks (burger, pizza, illustration), then the
per-skill loop over the card's `capabilities.skills` list (the top-level
`skills` field is not consulted here). -/
def agent_match (taskLower agentName : String) (card : AgentCard) : Bool :=
  let nameLower := pyLower agentName
  let desc := pyLower card.description
  (taskHasAny taskLower burgerKeywords &&
    (containsSub nameLower "burger" || containsSub desc "burger"))
  || (taskHasAny taskLower pizzaKeywords &&
    (containsSub nameLower "pizza" || containsSub desc "pizza"))
  || (taskHasAny taskLower illustrationKeywords &&
    (containsSub nameLower "illustrat" || containsSub desc "illustrat"))
  || card.capabilitiesSkills.any (skill_match taskLower nameLower)

/-- The capability router `select_best_agent(task, preferred_agent)`,
with the registry snapshot made explicit. A truthy (non-empty) preferred
agent present in the registry short-circuits; otherwise the first agent in
registry order whose name/description or nested skills satisfy any
category rule is returned, else the first registered agent, else none. -/
def select_best_agent (task : String) (preferred : Option String) (registry : Registry) :
    Option String :=
  if (match preferred with
      | some p => p != "" && (lookupAgent registry p).isSome
      | none => false) then
    preferred
  else
    let taskLower := pyLower task
    match registry.find? (fun a => agent_match taskLower a.1 a.2) with
    | some a => some a.1
    | none => registry.head?.map (fun a => a.1)

/-- A name/description-level category of the specified router: trigger
keywords plus the domain token tested against the agent name and
description. -/
structure NameDescRule where
  keywords : List String
  token : String

/-- A skill-level category of the specified router: trigger keywords plus
the domain tokens tested against a skill; `inSkillDescription` records
whether the tokens are also tested against the skill description (the
specified rules test name and description alike). -/
structure SkillRule where
  keywords : List String
  tokens : List String
  inSkillDescription : Bool

/-- The specified name/description-level categories, in scan order:
food-burger, food-pizza, illustration. -/
def specNameDescRules : List NameDescRule :=
  [⟨burgerKeywords, "burger"⟩, ⟨pizzaKeywords, "pizza"⟩, ⟨illustrationKeywords, "illustrat"⟩]

/-- The skill-level categories exactly as the specification words them:
each category matches when the task holds a trigger keyword and a domain
token appears in a skill name or skill description. Order: illustration,
currency, travel, burger, pizza. -/
def claimedSkillRules : List SkillRule :=
  [⟨illustrationKeywords, ["illustrat"], true⟩,
   ⟨currencyKeywords, ["currency"], true⟩,
   ⟨travelKeywords, ["travel", "restaurant", "attraction"], true⟩,
   ⟨burgerKeywords, ["burger"], true⟩,
   ⟨pizzaKeywords, ["pizza"], true⟩]

/-- The skill-level categories amended to what the code implements: the
travel category tests its tokens against the skill name only. -/
def amendedSkillRules : List SkillRule :=
  [⟨illustrationKeywords, ["illustrat"], true⟩,
   ⟨currencyKeywords, ["currency"], true⟩,
   ⟨travelKeywords, ["travel", "restaurant", "attraction"], false⟩,
   ⟨burgerKeywords, ["burger"], true⟩,
   ⟨pizzaKeywords, ["pizza"], true⟩]

/-- One skill-level rule applied to one skill, per the specification
words. -/
def spec_skill_rule_match (r : SkillRule) (taskLower : String) (sk : Skill) : Bool :=
  taskHasAny taskLower r.keywords &&
    r.tokens.any (fun t =>
      containsSub (pyLower sk.name) t || (r.inSkillDescription && containsSub (pyLower sk.description) t))

/-- Whether any specified category (name/description level first, then
skill level) matches the agent, for the given skill-level rule table. -/
def spec_agent_match (rules : List SkillRule) (taskLower agentName : String)
    (card : AgentCard) : Bool :=
  let nameLower := pyLower agentName
  let desc := pyLower card.description
  specNameDescRules.any (fun r =>
    taskHasAny taskLower r.keywords &&
      (containsSub nameLower r.token || containsSub desc r.token))
  || card.capabilitiesSkills.any (fun sk =>
       rules.any (fun r => spec_skill_rule_match r taskLower sk))

/-- The router exactly as the specification describes it, parameterised by
the skill-level rule table: preferred-agent short-circuit, then the first
agent in registry order matched by any category, then the first registered
agent as default, else none. -/
def spec_select (rules : List SkillRule) (task : String) (preferred : Option String)
    (registry : Registry) : Option String :=
  if (match preferred with
      | some p => p != "" && (lookupAgent registry p).isSome
      | none => false) then
    preferred
  else
    let taskLower := pyLower task
    match registry.find? (fun a => spec_agent_match rules taskLower a.1 a.2) with
    | some a => some a.1
    | none => registry.head?.map (fun a => a.1)

/-- The effective skill list computed during discovery:
`agent_card.get("skills", []) or agent_card.get("capabilities", \x7b\x7d).get("skills", [])`,
the first non-empty of the top-level and the nested list. -/
def effective_skills (card : AgentCard) : List Skill :=
  if card.skills.isEmpty then card.capabilitiesSkills else card.skills

/-- The failure modes of `call_agent`: the two `ValueError` raises for a
missing registry entry and a missing stored base URL, and the catch-all
dispatch failure re-raised as an HTTP 500. -/
inductive CallError where
  | agentNotFound (agentName : String)
  | noBaseUrl (agentName : String)
  | dispatch (detail : String)
deriving DecidableEq

/-- The JSON payload posted to the selected agent. -/
def taskPayload (task userId : String) : Json :=
  Json.obj [("task", Json.str task), ("user_id", Json.str userId)]

/-- The dispatcher `call_agent(agent_name, task, user_id)`. The outbound
HTTP call is the oracle `remote`, mapping the task URL and payload to
either a parsed JSON response body or a transport/HTTP error string. On
a successful response, `result.get("result", str(result))` reads the
`result` field of an object body, falling back to the rendering of the
whole body; on a non-object body that attribute access itself raises and
is caught by the catch-all handler, yielding a dispatch error. -/
def call_agent (registry : Registry) (agentName task userId : String)
    (remote : String → Json → Except String Json) : Except CallError Json :=
  match lookupAgent registry agentName with
  | none => .error (.agentNotFound agentName)
  | some card =>
    match card.baseUrl with
    | none => .error (.noBaseUrl agentName)
    | some b =>
      if b == "" then .error (.noBaseUrl agentName)
      else
        match remote (b ++ "/task") (taskPayload task userId) with
        | .error e => .error (.dispatch e)
        | .ok body =>
          match body with
          | .obj fields =>
            match jsonLookup "result" fields with
            | some v => .ok v
            | none => .ok (.str (pyStr body))
          | _ => .error (.dispatch "response body has no attribute get")

/-- A message taken from the `agent-tasks` queue: `str(msg)` is the task
text, and the application properties carry `user_id` (read with default
`"anonymous"`) and `preferred_agent` (read with no default). -/
structure TaskQueueMessage where
  body : String
  userIdProp : Option String := none
  preferredAgentProp : Option String := none

/-- A message published to the `agent-responses` queue by the queue
processor after a successful dispatch. -/
structure ResponseMessage where
  userId : String
  agentUsed : String
  resultBody : Json
  originalTask : String

/-- The terminal queue operation applied to one task message:
`complete_message` or `dead_letter_message(reason, error_description)`. -/
inductive TerminalOutcome where
  | completed
  | deadLettered (reason : String) (errorDescription : String)
deriving DecidableEq

/-- What one pass of the queue-processor message body did: the response
published to `agent-responses` (if any) and the terminal queue operation
applied to the task message. -/
structure ProcessResult where
  published : Option ResponseMessage
  outcome : TerminalOutcome

/-- Rendering of the exception text attached to a dead-letter operation
(`str(e)` of the raised error, with the agent name single-quoted as in
the Python messages). -/
def describeCallError : CallError → String
  | .agentNotFound agentName => "Agent \x27" ++ agentName ++ "\x27 not found"
  | .noBaseUrl agentName => "No base URL stored for agent \x27" ++ agentName ++ "\x27"
  | .dispatch detail => "500: Failed to call agent: " ++ detail

/-- The per-message body of `process_queue_messages`: extract the task,
user and preferred agent, run the router, and — under the guard
`if selected_agent:`, a Python truthiness test that is false both for
`None` and for the empty string — run the dispatcher and publish the
result; the message is then completed. Any exception instead dead-letters
the message with reason `"ProcessingError"`. When the router yields no
agent, or the empty-string agent name, the call-and-publish block is
skipped and the message is completed with nothing published. -/
def process_message (registry : Registry) (remote : String → Json → Except String Json)
    (msg : TaskQueueMessage) : ProcessResult :=
  let task := msg.body
  let userId := msg.userIdProp.getD "anonymous"
  match select_best_agent task msg.preferredAgentProp registry with
  | some agent =>
    if agent == "" then { published := none, outcome := .completed }
    else
      match call_agent registry agent task userId remote with
      | .ok result =>
        { published := some { userId := userId, agentUsed := agent,
                              resultBody := result, originalTask := task }
          outcome := .completed }
      | .error e =>
        { published := none, outcome := .deadLettered "ProcessingError" (describeCallError e) }
  | none => { published := none, outcome := .completed }

/-- The well-known discovery path stripped from an endpoint to obtain the
stored base URL. -/
def wellKnownPath : String := "/.well-known/agent.json"

/-- Storing one discovered card: the stripped endpoint becomes
`_discovery_url`, the endpoint minus the well-known path becomes
`_base_url`, and the card is keyed by its document name (default
`"unknown"`). -/
def storeDiscovered (reg : Registry) (endpoint : String) (card : AgentCard) : Registry :=
  registryInsert reg (card.name.getD "unknown")
    { card with discoveryUrl := some endpoint,
                baseUrl := some (pyReplace endpoint wellKnownPath "") }

/-- The discovery pass `discover_all_agents` over the configured endpoint
list, starting from the registry `init`. Blank endpoints are skipped; the
fetch oracle returns `none` when `discover_agent` fails (its catch-all
turns any fetch error into `None`), and that endpoint is skipped without
aborting the pass. -/
def discover_all_agents (fetch : String → Option AgentCard) (endpoints : List String)
    (init : Registry) : Registry :=
  endpoints.foldl (fun reg endpoint =>
    let e := pyStrip endpoint
    if e == "" then reg
    else
      match fetch e with
      | none => reg
      | some card => storeDiscovered reg e card) init

/-- The preferred-agent property stored by the async enqueue path:
`request.preferred_agent or ""`. -/
def stored_preferred_agent (preferred : Option String) : String :=
  match preferred with
  | some p => if p == "" then "" else p
  | none => ""

/-- A message available on the `agent-responses` queue. `body` is the
result of reading the message body (`.error` when that read raises, which
sends the handler to the abandon path); the properties carry `user_id`
and `agent_used`; `enqueuedTimeUtc` is `none` when the broker supplied no
enqueue time. -/
structure RespQueueMessage where
  body : Except String String
  userIdProp : Option String := none
  agentUsedProp : Option String := none
  enqueuedTimeUtc : Option String := none
  messageId : String := ""

/-- One record returned by the response reader. -/
structure ResponseRecord where
  userId : String
  response : String
  agentUsed : String
  timestamp : String
  messageId : String

/-- The queue operation applied to one inspected response message:
`complete_message` (removed) or `abandon_message` (returned). -/
inductive InspectedFate where
  | completed
  | abandoned
deriving DecidableEq

/-- One step of the receive iteration: either a message is delivered, or
the receive stream itself raises. -/
inductive RecvEvent where
  | msg (m : RespQueueMessage)
  | recvFailure (err : String)

/-- The filter test `user_id == "all" or msg_user_id == user_id`. -/
def matchesFilter (userFilter msgUserId : String) : Bool :=
  userFilter == "all" || msgUserId == userFilter

/-- The record appended for a matching message. -/
def mkRecord (m : RespQueueMessage) (body msgUserId : String) : ResponseRecord :=
  { userId := msgUserId
    response := body
    agentUsed := m.agentUsedProp.getD "unknown"
    timestamp := match m.enqueuedTimeUtc with | some t => t | none => "N/A"
    messageId := m.messageId }

/-- The receive loop of `get_responses`, with the accumulated records and
the fates of the messages inspected so far made explicit. A message whose
body read fails is abandoned and the loop continues; every other inspected
message is completed, its record appended first when the filter matches;
the loop stops once the record count reaches `maxMessages` (tested only
after a message was handled). A failure of the receive stream itself
escapes the loop and is returned as the error of the whole call. -/
def fetch_loop (userFilter : String) (maxMessages : Int) (acc : List ResponseRecord)
    (fates : List (RespQueueMessage × InspectedFate)) :
    List RecvEvent → Except String (List ResponseRecord × List (RespQueueMessage × InspectedFate))
  | [] => .ok (acc, fates)
  | .recvFailure err :: _ => .error err
  | .msg m :: rest =>
    match m.body with
    | .error _ => fetch_loop userFilter maxMessages acc (fates ++ [(m, .abandoned)]) rest
    | .ok body =>
      let msgUserId := m.userIdProp.getD "unknown"
      let acc2 := if matchesFilter userFilter msgUserId
                  then acc ++ [mkRecord m body msgUserId] else acc
      let fates2 := fates ++ [(m, .completed)]
      if (acc2.length : Int) ≥ maxMessages then .ok (acc2, fates2)
      else fetch_loop userFilter maxMessages acc2 fates2 rest

/-- The response reader `get_responses(user_id, max_messages)` over an
explicit stream of receive events: on success, the returned records and
the fate of every inspected message; on a receive-stream failure, the
error re-raised by the outer handler (HTTP 500), with all collected
records discarded. -/
def get_responses (userFilter : String) (maxMessages : Int) (events : List RecvEvent) :
    Except String (List ResponseRecord × List (RespQueueMessage × InspectedFate)) :=
  fetch_loop userFilter maxMessages [] [] events

/-- Whether a receive event is a message that `get_responses` would turn
into a record: a readable message passing the user filter. -/
def okMatches (userFilter : String) : RecvEvent → Bool
  | .msg m =>
    match m.body with
    | .ok _ => matchesFilter userFilter (m.userIdProp.getD "unknown")
    | .error _ => false
  | .recvFailure _ => false

/-! ### Concrete fixtures used by witnesses and counterexamples -/

/-- Two-agent registry whose second agent advertises travel only in a
skill description: the word "travel" appears in the skill description
`"travel planning"` but not in the skill name `"planner"`. -/
def c2Registry : Registry :=
  [("alpha", { name := some "alpha", description := "generic helper" }),
   ("beta", { name := some "beta", description := "assistant",
              capabilitiesSkills := [{ name := "planner", description := "travel planning" }] })]

/-- The currency-exchange skill of the routing example. -/
def currencySkill : Skill :=
  { name := "currency_exchange", description := "Convert amounts between currencies" }

/-- A first agent with no skills and no matching name/description. -/
def c3AgentA : AgentCard := { name := some "agent-a", description := "general assistant" }

/-- The travel agent declaring `currency_exchange` at the document top
level (the ADK shape). -/
def c3TravelTop : AgentCard :=
  { name := some "travel-agent", description := "helps with planning abroad",
    skills := [currencySkill] }

/-- The travel agent declaring `currency_exchange` under
`capabilities.skills` (the A2A shape). -/
def c3TravelNested : AgentCard :=
  { name := some "travel-agent", description := "helps with planning abroad",
    capabilitiesSkills := [currencySkill] }

/-- A registry holding the empty string as a key (a descriptor document
whose name field is the empty string). -/
def c5Registry : Registry :=
  [("helper", { name := some "helper" }), ("", { name := some "" })]

/-- Registry for the preferred-agent witness: a burger agent first, the
preferred travel agent second. -/
def c5wRegistry : Registry :=
  [("burger-agent", { name := some "burger-agent", description := "handles burger orders" }),
   ("travel-agent", { name := some "travel-agent", description := "trip planning" })]

/-- One-agent registry with no keyword overlap with the fixture task. -/
def c6Registry : Registry :=
  [("helper-agent", { name := some "helper-agent", description := "general assistant" })]

/-- A remote oracle that answers every call with a plain string result
body. -/
def remoteAlwaysOk : String → Json → Except String Json :=
  fun _ _ => .ok (Json.obj [("result", Json.str "done")])

/-- A task message with no user and no preferred-agent property. -/
def c1Msg : TaskQueueMessage := { body := "hello" }

/-- A dispatchable agent card whose document name is the empty string:
the router can return `""` for it, which the queue processor's
truthiness guard then treats as no agent. -/
def c1EmptyNameCard : AgentCard :=
  { name := some "", description := "burger joint", baseUrl := some "http://x" }

/-- A readable response message belonging to user `u2`. -/
def c4Msg1 : RespQueueMessage := { body := .ok "resp-1", userIdProp := some "u2" }

/-- A readable response message belonging to user `u1`. -/
def c4wMsg : RespQueueMessage := { body := .ok "resp-a", userIdProp := some "u1" }

/-- A readable, matching response message collected before a failure. -/
def c8Msg : RespQueueMessage := { body := .ok "r1", userIdProp := some "u1" }

/-- A response message whose body read raises. -/
def c8BadMsg : RespQueueMessage := { body := .error "decode error", userIdProp := some "u1" }

/-- The descriptor served by the healthy discovery endpoint. -/
def c9CardB : AgentCard := { name := some "travel-agent", description := "trips" }

/-- A discovery oracle that succeeds only on endpoint `b`. -/
def c9Fetch : String → Option AgentCard :=
  fun e => if e == "http://b/.well-known/agent.json" then some c9CardB else none

/-- A registered agent with a stored base URL, for dispatcher fixtures. -/
def c7Card : AgentCard := { name := some "echo-agent", baseUrl := some "http://echo" }

/-- A remote oracle whose successful response body is a JSON array, not
an object. -/
def c7RemoteArr : String → Json → Except String Json := fun _ _ => .ok (Json.arr [])

/-! ### Helper lemmas -/

/-- `List.any` only depends on the pointwise values of its predicate. -/
theorem any_ext {α : Type} (f g : α → Bool) (l : List α) (h : ∀ x ∈ l, f x = g x) :
    l.any f = l.any g := by
  induction l with
  | nil => rfl
  | cons a t ih =>
    simp only [List.any_cons]
    rw [h a (by simp), ih (fun x hx => h x (by simp [hx]))]

/-- `List.find?` only depends on the pointwise values of its predicate. -/
theorem find?_ext {α : Type} (f g : α → Bool) (l : List α) (h : ∀ x ∈ l, f x = g x) :
    l.find? f = l.find? g := by
  induction l with
  | nil => rfl
  | cons a t ih =>
    simp only [List.find?_cons]
    rw [h a (by simp)]
    cases hg : g a with
    | true => rfl
    | false => exact ih (fun x hx => h x (by simp [hx]))

/-- If a conjunction with a disjunct is false, the conjunction with one
disjunct alone is false. -/
theorem and_or_absorb {a b c : Bool} (h : (a && (b || c)) = false) : (a && b) = false := by
  cases a <;> cases b <;> simp_all

/-- The router returns `none` exactly on the empty registry. -/
theorem select_none_iff (task : String) (preferred : Option String) (registry : Registry) :
    select_best_agent task preferred registry = none ↔ registry = [] := by
  unfold select_best_agent
  split
  case isTrue h =>
    cases preferred with
    | none => simp at h
    | some p =>
      simp only [reduceCtorEq, false_iff]
      intro hreg
      subst hreg
      simp [lookupAgent] at h
  case isFalse h =>
    cases hf : List.find? (fun a => agent_match (pyLower task) a.1 a.2) registry with
    | some a =>
      have ha := List.mem_of_find?_eq_some hf
      simp only [hf, reduceCtorEq, false_iff]
      intro hreg
      subst hreg
      simp at ha
    | none =>
      simp only [hf]
      cases registry with
      | nil => simp
      | cons a t => simp

/-! ### Claim C5 -/

/-- C5 (counterexample): the empty string can be a registry key, and it
is then supplied and present, yet the router does not return it — Python
truthiness skips the preferred-agent branch for `""` and the default
fallback yields the first agent instead. -/
theorem claim_C5_counterexample :
    (lookupAgent c5Registry "").isSome = true
    ∧ select_best_agent "hi" (some "") c5Registry = some "helper" :=
  ⟨rfl, rfl⟩

/-- C5 (amended): for every registry, task and hint, if the supplied
preferred agent is non-empty and a key of the registry, the router
returns it, regardless of the task content. -/
theorem claim_C5 (registry : Registry) (task : String) (p : String)
    (hne : p ≠ "") (hmem : (lookupAgent registry p).isSome) :
    select_best_agent task (some p) registry = some p := by
  unfold select_best_agent
  simp [hmem, hne]

/-- C5 (witness): with a burger agent first in the registry and a burger
task, the preferred travel agent still wins. -/
theorem claim_C5_witness :
    select_best_agent "I want 2 cheeseburgers" (some "travel-agent") c5wRegistry
      = some "travel-agent" :=
  claim_C5 c5wRegistry "I want 2 cheeseburgers" "travel-agent" (by decide) (by rfl)

/-! ### Claim C10 -/

/-- C10: the async enqueue path stores the empty string as the
preferred-agent property when no hint is given, and the router treats a
supplied empty string exactly as no preference, for every task and every
registry — so a task enqueued without a hint is routed as a synchronous
task without a hint. -/
theorem claim_C10 :
    stored_preferred_agent none = ""
    ∧ ∀ (task : String) (registry : Registry),
        select_best_agent task (some (stored_preferred_agent none)) registry
          = select_best_agent task none registry :=
  ⟨rfl, fun _ _ => rfl⟩

/-! ### Claim C3 -/

/-- C3 (code bug): the effective skill list computed at discovery is the
first non-empty of the top-level and the nested skill field, and it is
identical for the two shapes of the same descriptor; yet the router
ignores it and reads only `capabilities.skills`, so the agent declaring
`currency_exchange` at the top level is not selected for
`"Convert 100 USD to EUR"` (the default first agent is), while the nested
shape is selected via the skill-level currency rule. -/
theorem claim_C3 :
    effective_skills c3TravelTop = [currencySkill]
    ∧ effective_skills c3TravelNested = [currencySkill]
    ∧ select_best_agent "Convert 100 USD to EUR" none
        [("agent-a", c3AgentA), ("travel-agent", c3TravelTop)] = some "agent-a"
    ∧ select_best_agent "Convert 100 USD to EUR" none
        [("agent-a", c3AgentA), ("travel-agent", c3TravelNested)] = some "travel-agent" :=
  ⟨rfl, rfl, rfl, rfl⟩

/-! ### Claim C6 -/

/-- C6: with no preferred agent, if no category rule matches any
registered agent, the router returns the first agent in registry order;
and it returns none precisely on the empty registry. -/
theorem claim_C6 (task : String) (registry : Registry)
    (hnone : ∀ a ∈ registry, agent_match (pyLower task) a.1 a.2 = false) :
    select_best_agent task none registry = registry.head?.map (fun a => a.1)
    ∧ (select_best_agent task none registry = none ↔ registry = []) := by
  refine ⟨?_, select_none_iff task none registry⟩
  unfold select_best_agent
  have hfind : List.find? (fun a => agent_match (pyLower task) a.1 a.2) registry = none :=
    List.find?_eq_none.mpr (fun x hx => by simp [hnone x hx])
  simp [hfind]

/-- C6 (witness): `"what time is it"` matches nothing, and the single
registered helper agent is returned as the default. -/
theorem claim_C6_witness :
    select_best_agent "what time is it" none c6Registry
      = c6Registry.head?.map (fun a => a.1)
    ∧ (select_best_agent "what time is it" none c6Registry = none ↔ c6Registry = []) :=
  claim_C6 "what time is it" c6Registry (by decide)

/-! ### Claim C9 -/

/-- C9: discovery is partial-failure tolerant — with endpoints A then B,
if fetching A fails and fetching B succeeds, the resulting registry holds
exactly B's agent (keyed by its document name, with the discovery URL and
the stripped base URL stored) and nothing of A, and the pass returns a
value (it does not raise). -/
theorem claim_C9 (endpointA endpointB : String) (fetch : String → Option AgentCard)
    (cardB : AgentCard) (hA : fetch (pyStrip endpointA) = none) (hB : pyStrip endpointB ≠ "")
    (hBf : fetch (pyStrip endpointB) = some cardB) :
    discover_all_agents fetch [endpointA, endpointB] []
      = [(cardB.name.getD "unknown",
          { cardB with discoveryUrl := some (pyStrip endpointB),
                       baseUrl := some (pyReplace (pyStrip endpointB) wellKnownPath "") })] := by
  unfold discover_all_agents
  simp only [List.foldl]
  by_cases hAe : pyStrip endpointA = ""
  · simp [hAe, hB, hBf, storeDiscovered, registryInsert]
  · simp [hAe, hA, hB, hBf, storeDiscovered, registryInsert]

/-- C9 (witness): endpoint a fails, endpoint b (with surrounding
whitespace) succeeds; the registry is exactly the travel agent with base
URL `http://b`. -/
theorem claim_C9_witness :
    discover_all_agents c9Fetch
      ["http://a/.well-known/agent.json", " http://b/.well-known/agent.json "] []
      = [("travel-agent",
          { c9CardB with discoveryUrl := some "http://b/.well-known/agent.json",
                         baseUrl := some "http://b" })] :=
  claim_C9 "http://a/.well-known/agent.json" " http://b/.well-known/agent.json "
    c9Fetch c9CardB (by rfl) (by decide) (by rfl)

/-! ### Claim C1 -/

/-- C1 (counterexample): the queue processor completes a task message
with no response published, so the message hits neither of the claimed
terminal outcomes (completed-with-published-response, dead-lettered).
This happens on an empty registry, and also on a non-empty registry when
the selected agent name is the empty string (a descriptor named `""`):
the truthiness guard skips the call-and-publish block, the agent is
never called, and the message is completed silently. -/
theorem claim_C1_counterexample :
    (process_message [] remoteAlwaysOk c1Msg).outcome = TerminalOutcome.completed
    ∧ (process_message [] remoteAlwaysOk c1Msg).published = none
    ∧ select_best_agent "order a burger" none [("", c1EmptyNameCard)] = some ""
    ∧ (process_message [("", c1EmptyNameCard)] remoteAlwaysOk
        { body := "order a burger" }).outcome = TerminalOutcome.completed
    ∧ (process_message [("", c1EmptyNameCard)] remoteAlwaysOk
        { body := "order a burger" }).published = none :=
  ⟨rfl, rfl, rfl, rfl, rfl⟩

/-- C1 (amended): every task message reaches exactly one terminal
outcome — completed or dead-lettered, never neither; a response is
published only on completion; a truthy (non-empty) selected agent whose
call succeeds publishes the response and completes the message, and one
whose call fails dead-letters it with nothing published; when the router
yields no agent or the empty-string agent name — in particular on an
empty registry — the message is completed with nothing published. -/
theorem claim_C1 (registry : Registry) (remote : String → Json → Except String Json)
    (msg : TaskQueueMessage) :
    ((process_message registry remote msg).outcome = TerminalOutcome.completed
      ∨ ∃ reason desc, (process_message registry remote msg).outcome
          = TerminalOutcome.deadLettered reason desc)
    ∧ ((process_message registry remote msg).published.isSome →
        (process_message registry remote msg).outcome = TerminalOutcome.completed)
    ∧ (∀ agent result,
        select_best_agent msg.body msg.preferredAgentProp registry = some agent →
        agent ≠ "" →
        call_agent registry agent msg.body (msg.userIdProp.getD "anonymous") remote
          = .ok result →
        (process_message registry remote msg).published
            = some { userId := msg.userIdProp.getD "anonymous", agentUsed := agent,
                     resultBody := result, originalTask := msg.body }
          ∧ (process_message registry remote msg).outcome = TerminalOutcome.completed)
    ∧ (∀ agent e,
        select_best_agent msg.body msg.preferredAgentProp registry = some agent →
        agent ≠ "" →
        call_agent registry agent msg.body (msg.userIdProp.getD "anonymous") remote
          = .error e →
        (process_message registry remote msg).published = none
          ∧ (process_message registry remote msg).outcome
              = TerminalOutcome.deadLettered "ProcessingError" (describeCallError e))
    ∧ ((select_best_agent msg.body msg.preferredAgentProp registry = none
        ∨ select_best_agent msg.body msg.preferredAgentProp registry = some "") →
        (process_message registry remote msg).published = none
          ∧ (process_message registry remote msg).outcome = TerminalOutcome.completed)
    ∧ (registry = [] →
        (process_message registry remote msg).outcome = TerminalOutcome.completed
        ∧ (process_message registry remote msg).published = none) := by
  cases hsel : select_best_agent msg.body msg.preferredAgentProp registry with
  | none =>
    have hpm : process_message registry remote msg
        = { published := none, outcome := .completed } := by
      simp only [process_message]
      rw [hsel]
    rw [hpm]
    refine ⟨Or.inl rfl, by simp, ?_, ?_, fun _ => ⟨rfl, rfl⟩, fun _ => ⟨rfl, rfl⟩⟩
    · intro agent result hs hne hcall
      simp at hs
    · intro agent e hs hne hcall
      simp at hs
  | some agent =>
    have hreg : registry ≠ [] := by
      intro h
      rw [(select_none_iff msg.body msg.preferredAgentProp registry).mpr h] at hsel
      cases hsel
    by_cases hae : agent = ""
    · subst hae
      have hpm : process_message registry remote msg
          = { published := none, outcome := .completed } := by
        simp only [process_message]
        rw [hsel]
        simp
      rw [hpm]
      refine ⟨Or.inl rfl, by simp, ?_, ?_, fun _ => ⟨rfl, rfl⟩, fun _ => ⟨rfl, rfl⟩⟩
      · intro agent2 result hs hne hcall
        injection hs with h2
        exact absurd h2.symm hne
      · intro agent2 e hs hne hcall
        injection hs with h2
        exact absurd h2.symm hne
    · cases hcall : call_agent registry agent msg.body (msg.userIdProp.getD "anonymous") remote with
      | ok result =>
        have hpm : process_message registry remote msg
            = { published := some { userId := msg.userIdProp.getD "anonymous",
                                    agentUsed := agent, resultBody := result,
                                    originalTask := msg.body },
                outcome := .completed } := by
          simp only [process_message]
          rw [hsel]
          simp [hae, hcall]
        rw [hpm]
        refine ⟨Or.inl rfl, by simp, ?_, ?_, ?_, fun h => absurd h hreg⟩
        · intro agent2 result2 hs hne hcall2
          injection hs with h2
          subst h2
          rw [hcall] at hcall2
          injection hcall2 with h3
          subst h3
          exact ⟨rfl, rfl⟩
        · intro agent2 e hs hne hcall2
          injection hs with h2
          subst h2
          rw [hcall] at hcall2
          simp at hcall2
        · intro hdisj
          rcases hdisj with hd | hd
          · simp at hd
          · injection hd with h2
            exact absurd h2 hae
      | error e =>
        have hpm : process_message registry remote msg
            = { published := none,
                outcome := .deadLettered "ProcessingError" (describeCallError e) } := by
          simp only [process_message]
          rw [hsel]
          simp [hae, hcall]
        rw [hpm]
        refine ⟨Or.inr ⟨_, _, rfl⟩, by simp, ?_, ?_, ?_, fun h => absurd h hreg⟩
        · intro agent2 result hs hne hcall2
          injection hs with h2
          subst h2
          rw [hcall] at hcall2
          simp at hcall2
        · intro agent2 e2 hs hne hcall2
          injection hs with h2
          subst h2
          rw [hcall] at hcall2
          injection hcall2 with h3
          subst h3
          exact ⟨rfl, rfl⟩
        · intro hdisj
          rcases hdisj with hd | hd
          · simp at hd
          · injection hd with h2
            exact absurd h2 hae

/-- C1 (witness): the amended statement at a concrete non-empty registry,
remote oracle and message. -/
theorem claim_C1_witness :
    ((process_message c5wRegistry remoteAlwaysOk c1Msg).outcome = TerminalOutcome.completed
      ∨ ∃ reason desc, (process_message c5wRegistry remoteAlwaysOk c1Msg).outcome
          = TerminalOutcome.deadLettered reason desc)
    ∧ ((process_message c5wRegistry remoteAlwaysOk c1Msg).published.isSome →
        (process_message c5wRegistry remoteAlwaysOk c1Msg).outcome = TerminalOutcome.completed)
    ∧ (∀ agent result,
        select_best_agent c1Msg.body c1Msg.preferredAgentProp c5wRegistry = some agent →
        agent ≠ "" →
        call_agent c5wRegistry agent c1Msg.body (c1Msg.userIdProp.getD "anonymous") remoteAlwaysOk
          = .ok result →
        (process_message c5wRegistry remoteAlwaysOk c1Msg).published
            = some { userId := c1Msg.userIdProp.getD "anonymous", agentUsed := agent,
                     resultBody := result, originalTask := c1Msg.body }
          ∧ (process_message c5wRegistry remoteAlwaysOk c1Msg).outcome
              = TerminalOutcome.completed)
    ∧ (∀ agent e,
        select_best_agent c1Msg.body c1Msg.preferredAgentProp c5wRegistry = some agent →
        agent ≠ "" →
        call_agent c5wRegistry agent c1Msg.body (c1Msg.userIdProp.getD "anonymous") remoteAlwaysOk
          = .error e →
        (process_message c5wRegistry remoteAlwaysOk c1Msg).published = none
          ∧ (process_message c5wRegistry remoteAlwaysOk c1Msg).outcome
              = TerminalOutcome.deadLettered "ProcessingError" (describeCallError e))
    ∧ ((select_best_agent c1Msg.body c1Msg.preferredAgentProp c5wRegistry = none
        ∨ select_best_agent c1Msg.body c1Msg.preferredAgentProp c5wRegistry = some "") →
        (process_message c5wRegistry remoteAlwaysOk c1Msg).published = none
          ∧ (process_message c5wRegistry remoteAlwaysOk c1Msg).outcome
              = TerminalOutcome.completed)
    ∧ (c5wRegistry = [] →
        (process_message c5wRegistry remoteAlwaysOk c1Msg).outcome = TerminalOutcome.completed
        ∧ (process_message c5wRegistry remoteAlwaysOk c1Msg).published = none) :=
  claim_C1 c5wRegistry remoteAlwaysOk c1Msg

/-! ### Claim C2 -/

/-- On one skill, the code's rule chain agrees with the amended
specified rules, provided the name-level burger and pizza absorbers are
off (the code's extra agent-name disjuncts in the skill-level burger and
pizza rules are then vacuous). -/
theorem skill_rules_agree (taskLower nameLower : String) (sk : Skill)
    (hb : (taskHasAny taskLower burgerKeywords && containsSub nameLower "burger") = false)
    (hp : (taskHasAny taskLower pizzaKeywords && containsSub nameLower "pizza") = false) :
    skill_match taskLower nameLower sk
      = amendedSkillRules.any (fun r => spec_skill_rule_match r taskLower sk) := by
  cases hKB : taskHasAny taskLower burgerKeywords <;>
    cases hNB : containsSub nameLower "burger" <;>
    cases hKP : taskHasAny taskLower pizzaKeywords <;>
    cases hNP : containsSub nameLower "pizza" <;>
    simp_all [skill_match, amendedSkillRules, spec_skill_rule_match, Bool.or_assoc]

/-- Lifting of `skill_rules_agree` over a skill list. -/
theorem skills_any_agree (taskLower nameLower : String) (skills : List Skill)
    (hb : (taskHasAny taskLower burgerKeywords && containsSub nameLower "burger") = false)
    (hp : (taskHasAny taskLower pizzaKeywords && containsSub nameLower "pizza") = false) :
    skills.any (skill_match taskLower nameLower)
      = skills.any (fun sk => amendedSkillRules.any (fun r => spec_skill_rule_match r taskLower sk)) :=
  any_ext _ _ _ (fun sk _ => skill_rules_agree taskLower nameLower sk hb hp)

/-- Per agent, the code's matching body equals the specified matching
with the amended skill-level rules: the code's extra agent-name disjuncts
in the skill-level burger and pizza rules are absorbed by the
name/description-level rules scanned first. -/
theorem agent_match_agree (taskLower agentName : String) (card : AgentCard) :
    agent_match taskLower agentName card
      = spec_agent_match amendedSkillRules taskLower agentName card := by
  simp only [agent_match, spec_agent_match, specNameDescRules, List.any_cons, List.any_nil,
    Bool.or_false]
  cases hb : taskHasAny taskLower burgerKeywords && containsSub (pyLower agentName) "burger" with
  | true =>
    simp only [Bool.and_eq_true] at hb
    obtain ⟨h1, h2⟩ := hb
    simp [h1, h2]
  | false =>
    cases hp : taskHasAny taskLower pizzaKeywords && containsSub (pyLower agentName) "pizza" with
    | true =>
      simp only [Bool.and_eq_true] at hp
      obtain ⟨h1, h2⟩ := hp
      simp [h1, h2]
    | false =>
      rw [skills_any_agree taskLower (pyLower agentName) card.capabilitiesSkills hb hp]
      simp [Bool.or_assoc]

/-- C2 (counterexample): an agent whose only travel evidence is in a
skill description is matched by the claimed rules but not by the code —
the code checks only the skill name for the travel tokens, so the default
first agent is returned instead. -/
theorem claim_C2_counterexample :
    select_best_agent "plan a trip" none c2Registry = some "alpha"
    ∧ spec_select claimedSkillRules "plan a trip" none c2Registry = some "beta" :=
  ⟨rfl, rfl⟩

/-- C2 (amended): for every registry, task and hint, the router equals
the specified first-match scan with the skill-level rule table amended so
that the travel category tests its domain tokens against the skill name
only (not the skill description); all other categories are as claimed. -/
theorem claim_C2 (task : String) (preferred : Option String) (registry : Registry) :
    select_best_agent task preferred registry
      = spec_select amendedSkillRules task preferred registry := by
  unfold select_best_agent spec_select
  have hfind : registry.find? (fun a => agent_match (pyLower task) a.1 a.2)
      = registry.find? (fun a => spec_agent_match amendedSkillRules (pyLower task) a.1 a.2) :=
    find?_ext _ _ registry (fun a _ => agent_match_agree (pyLower task) a.1 a.2)
  by_cases hC : (match preferred with
      | some p => p != "" && (lookupAgent registry p).isSome
      | none => false) = true
  · simp [hC]
  · simp only [hC]
    rw [if_neg (by simp), if_neg (by simp), hfind]

/-! ### Claim C7 -/

/-- C7 (counterexample): a successful remote response whose body is a
JSON array (not an object) makes the dispatcher fail with a dispatch
error, refuting the claim that callAgent never fails solely because the
response shape is unexpected. -/
theorem claim_C7_counterexample :
    c7RemoteArr "http://echo/task" (taskPayload "t" "u") = .ok (Json.arr [])
    ∧ call_agent [("echo-agent", c7Card)] "echo-agent" "t" "u" c7RemoteArr
        = .error (CallError.dispatch "response body has no attribute get") :=
  ⟨rfl, rfl⟩

/-- C7 (amended): the dispatcher fails with AgentNotFound when the name
is absent from the registry, and with the missing-base-URL error when the
stored card has no base URL or an empty one; on a successful response
whose body is a JSON object it returns the result field when present,
else the serialization of the whole object; a transport error is a
dispatch failure; and a successful response whose body is not a JSON
object is also a dispatch failure (the attribute access on the body
raises and is caught by the catch-all handler). -/
theorem claim_C7 (registry : Registry) (agentName task userId : String)
    (remote : String → Json → Except String Json) :
    (lookupAgent registry agentName = none →
      call_agent registry agentName task userId remote
        = .error (CallError.agentNotFound agentName))
    ∧ (∀ card, lookupAgent registry agentName = some card →
        (card.baseUrl = none ∨ card.baseUrl = some "") →
        call_agent registry agentName task userId remote
          = .error (CallError.noBaseUrl agentName))
    ∧ (∀ card b fields, lookupAgent registry agentName = some card →
        card.baseUrl = some b → b ≠ "" →
        remote (b ++ "/task") (taskPayload task userId) = .ok (Json.obj fields) →
        call_agent registry agentName task userId remote
          = (match jsonLookup "result" fields with
             | some v => .ok v
             | none => .ok (.str (pyStr (Json.obj fields)))))
    ∧ (∀ card b e, lookupAgent registry agentName = some card →
        card.baseUrl = some b → b ≠ "" →
        remote (b ++ "/task") (taskPayload task userId) = .error e →
        call_agent registry agentName task userId remote
          = .error (CallError.dispatch e))
    ∧ (∀ card b body, lookupAgent registry agentName = some card →
        card.baseUrl = some b → b ≠ "" →
        remote (b ++ "/task") (taskPayload task userId) = .ok body →
        (∀ fields, body ≠ Json.obj fields) →
        call_agent registry agentName task userId remote
          = .error (CallError.dispatch "response body has no attribute get")) := by
  refine ⟨?_, ?_, ?_, ?_, ?_⟩
  · intro h
    simp [call_agent, h]
  · intro card hcard hurl
    rcases hurl with h | h <;> simp [call_agent, hcard, h]
  · intro card b fields hcard hurl hneb hrem
    simp [call_agent, hcard, hurl, hneb, hrem]
  · intro card b e hcard hurl hneb hrem
    simp [call_agent, hcard, hurl, hneb, hrem]
  · intro card b body hcard hurl hneb hrem hshape
    cases body with
    | obj fields => exact absurd rfl (hshape fields)
    | null => simp [call_agent, hcard, hurl, hneb, hrem]
    | bool x => simp [call_agent, hcard, hurl, hneb, hrem]
    | num n => simp [call_agent, hcard, hurl, hneb, hrem]
    | str s => simp [call_agent, hcard, hurl, hneb, hrem]
    | arr elems => simp [call_agent, hcard, hurl, hneb, hrem]

/-- C7 (witness): the amended statement applied to the ghost-agent
example — an empty registry yields AgentNotFound. -/
theorem claim_C7_witness :
    call_agent [] "ghost-agent" "plan a trip" "u1" remoteAlwaysOk
      = .error (CallError.agentNotFound "ghost-agent") :=
  (claim_C7 [] "ghost-agent" "plan a trip" "u1" remoteAlwaysOk).1 rfl

/-! ### Claim C4 -/

/-- Record-count bound of the receive loop: the loop stops once the
count reaches the bound, but the bound is tested only after a message is
handled, so one record past a non-positive bound is possible. -/
theorem fetch_loop_len_bound (userFilter : String) (maxMessages : Int) :
    ∀ (events : List RecvEvent) (acc : List ResponseRecord)
      (fates : List (RespQueueMessage × InspectedFate)) out,
      fetch_loop userFilter maxMessages acc fates events = .ok out →
      (out.1.length : Int) ≤ max ((acc.length : Int) + 1) maxMessages := by
  intro events
  induction events with
  | nil =>
    intro acc fates out h
    simp only [fetch_loop, Except.ok.injEq] at h
    subst h
    dsimp only
    exact le_trans (by omega) (le_max_left _ _)
  | cons ev rest ih =>
    intro acc fates out h
    cases ev with
    | recvFailure err => simp [fetch_loop] at h
    | msg m =>
      cases hbody : m.body with
      | error e =>
        simp only [fetch_loop, hbody] at h
        exact ih acc (fates ++ [(m, .abandoned)]) out h
      | ok body =>
        simp only [fetch_loop, hbody] at h
        by_cases hm : matchesFilter userFilter (m.userIdProp.getD "unknown") = true
        · rw [if_pos hm] at h
          split at h
          next hge =>
            simp only [Except.ok.injEq] at h
            subst h
            dsimp only
            simp only [List.length_append, List.length_cons, List.length_nil]
            push_cast
            exact le_trans (by omega) (le_max_left _ _)
          next hge =>
            have hrec := ih _ _ out h
            simp only [List.length_append, List.length_cons, List.length_nil] at hrec hge
            push_cast at hrec hge
            have hM : (acc.length : Int) + 1 + 1 ≤ maxMessages := by omega
            rw [max_eq_right hM] at hrec
            exact le_trans hrec (le_max_right _ _)
        · rw [if_neg hm] at h
          split at h
          next hge =>
            simp only [Except.ok.injEq] at h
            subst h
            dsimp only
            exact le_trans (by omega) (le_max_left _ _)
          next hge =>
            exact ih _ _ out h

/-- The loop returns no more records than there are readable matching
messages among the events it was given. -/
theorem fetch_loop_len_avail (userFilter : String) (maxMessages : Int) :
    ∀ (events : List RecvEvent) (acc : List ResponseRecord)
      (fates : List (RespQueueMessage × InspectedFate)) out,
      fetch_loop userFilter maxMessages acc fates events = .ok out →
      out.1.length ≤ acc.length + (events.filter (okMatches userFilter)).length := by
  intro events
  induction events with
  | nil =>
    intro acc fates out h
    simp only [fetch_loop, Except.ok.injEq] at h
    subst h
    simp
  | cons ev rest ih =>
    intro acc fates out h
    cases ev with
    | recvFailure err => simp [fetch_loop] at h
    | msg m =>
      cases hbody : m.body with
      | error e =>
        simp only [fetch_loop, hbody] at h
        have := ih acc (fates ++ [(m, .abandoned)]) out h
        simpa [List.filter_cons, okMatches, hbody] using this
      | ok body =>
        simp only [fetch_loop, hbody] at h
        by_cases hm : matchesFilter userFilter (m.userIdProp.getD "unknown") = true
        · rw [if_pos hm] at h
          have hfil : (List.filter (okMatches userFilter) (RecvEvent.msg m :: rest)).length
              = (List.filter (okMatches userFilter) rest).length + 1 := by
            simp [List.filter_cons, okMatches, hbody, hm]
          split at h
          next hge =>
            simp only [Except.ok.injEq] at h
            subst h
            dsimp only
            simp only [hfil, List.length_append, List.length_cons, List.length_nil]
            omega
          next hge =>
            have hrec := ih _ _ out h
            simp only [List.length_append, List.length_cons, List.length_nil] at hrec
            simp only [hfil]
            omega
        · rw [if_neg hm] at h
          have hfil : (List.filter (okMatches userFilter) (RecvEvent.msg m :: rest)).length
              = (List.filter (okMatches userFilter) rest).length := by
            simp [List.filter_cons, okMatches, hbody, hm]
          split at h
          next hge =>
            simp only [Except.ok.injEq] at h
            subst h
            dsimp only
            simp only [hfil]
            omega
          next hge =>
            have hrec := ih _ _ out h
            simp only [hfil]
            omega

/-- Every record the loop returns obeys the user filter, provided the
records accumulated so far do. -/
theorem fetch_loop_user (userFilter : String) (maxMessages : Int) :
    ∀ (events : List RecvEvent) (acc : List ResponseRecord)
      (fates : List (RespQueueMessage × InspectedFate)) out,
      fetch_loop userFilter maxMessages acc fates events = .ok out →
      (∀ r ∈ acc, userFilter ≠ "all" → r.userId = userFilter) →
      ∀ r ∈ out.1, userFilter ≠ "all" → r.userId = userFilter := by
  intro events
  induction events with
  | nil =>
    intro acc fates out h hacc
    simp only [fetch_loop, Except.ok.injEq] at h
    subst h
    exact hacc
  | cons ev rest ih =>
    intro acc fates out h hacc
    cases ev with
    | recvFailure err => simp [fetch_loop] at h
    | msg m =>
      cases hbody : m.body with
      | error e =>
        simp only [fetch_loop, hbody] at h
        exact ih acc (fates ++ [(m, .abandoned)]) out h hacc
      | ok body =>
        simp only [fetch_loop, hbody] at h
        by_cases hm : matchesFilter userFilter (m.userIdProp.getD "unknown") = true
        · rw [if_pos hm] at h
          have hacc2 : ∀ r ∈ acc ++ [mkRecord m body (m.userIdProp.getD "unknown")],
              userFilter ≠ "all" → r.userId = userFilter := by
            intro r hr hne
            rcases List.mem_append.mp hr with hr | hr
            · exact hacc r hr hne
            · simp only [List.mem_singleton] at hr
              subst hr
              have : userFilter = "all" ∨ m.userIdProp.getD "unknown" = userFilter := by
                simpa [matchesFilter] using hm
              rcases this with h1 | h1
              · exact absurd h1 hne
              · simpa [mkRecord] using h1
          split at h
          next hge =>
            simp only [Except.ok.injEq] at h
            subst h
            exact hacc2
          next hge =>
            exact ih _ _ out h hacc2
        · rw [if_neg hm] at h
          split at h
          next hge =>
            simp only [Except.ok.injEq] at h
            subst h
            exact hacc
          next hge =>
            exact ih _ _ out h hacc

/-- Every inspected message is completed when its body was readable and
abandoned exactly when its body read failed, provided the fates recorded
so far obey the same rule. -/
theorem fetch_loop_fates (userFilter : String) (maxMessages : Int) :
    ∀ (events : List RecvEvent) (acc : List ResponseRecord)
      (fates : List (RespQueueMessage × InspectedFate)) out,
      fetch_loop userFilter maxMessages acc fates events = .ok out →
      (∀ mf ∈ fates, mf.2 = InspectedFate.abandoned ↔ ∃ e, mf.1.body = Except.error e) →
      ∀ mf ∈ out.2, mf.2 = InspectedFate.abandoned ↔ ∃ e, mf.1.body = Except.error e := by
  intro events
  induction events with
  | nil =>
    intro acc fates out h hf
    simp only [fetch_loop, Except.ok.injEq] at h
    subst h
    exact hf
  | cons ev rest ih =>
    intro acc fates out h hf
    cases ev with
    | recvFailure err => simp [fetch_loop] at h
    | msg m =>
      cases hbody : m.body with
      | error e =>
        simp only [fetch_loop, hbody] at h
        refine ih acc (fates ++ [(m, .abandoned)]) out h ?_
        intro mf hmf
        rcases List.mem_append.mp hmf with hmf | hmf
        · exact hf mf hmf
        · simp only [List.mem_singleton] at hmf
          subst hmf
          simp [hbody]
      | ok body =>
        simp only [fetch_loop, hbody] at h
        have hf2 : ∀ mf ∈ fates ++ [(m, InspectedFate.completed)],
            mf.2 = InspectedFate.abandoned ↔ ∃ e, mf.1.body = Except.error e := by
          intro mf hmf
          rcases List.mem_append.mp hmf with hmf | hmf
          · exact hf mf hmf
          · simp only [List.mem_singleton] at hmf
            subst hmf
            simp [hbody]
        by_cases hm : matchesFilter userFilter (m.userIdProp.getD "unknown") = true
        · rw [if_pos hm] at h
          split at h
          next hge =>
            simp only [Except.ok.injEq] at h
            subst h
            exact hf2
          next hge =>
            exact ih _ _ out h hf2
        · rw [if_neg hm] at h
          split at h
          next hge =>
            simp only [Except.ok.injEq] at h
            subst h
            exact hf2
          next hge =>
            exact ih _ _ out h hf2

/-- C4 (counterexample): an inspected message that does not match the
user filter is completed (removed from the queue), not abandoned; and
with bound 0 one record is still returned, because the bound is tested
only after a message is handled. -/
theorem claim_C4_counterexample :
    get_responses "u1" 10 [RecvEvent.msg c4Msg1]
      = .ok ([], [(c4Msg1, InspectedFate.completed)])
    ∧ get_responses "all" 0 [RecvEvent.msg c4Msg1]
      = .ok ([mkRecord c4Msg1 "resp-1" "u2"], [(c4Msg1, InspectedFate.completed)]) :=
  ⟨rfl, rfl⟩

/-- C4 (amended): on a successful run, the response reader returns at
most `max 1 N` records (at most N whenever N is at least one) and never
more than the number of readable matching messages; with a user filter
other than `"all"` every returned record carries that user; and every
inspected message whose body was readable is completed — matching or
not — while exactly the unreadable ones are abandoned. -/
theorem claim_C4 (userFilter : String) (maxMessages : Int) (events : List RecvEvent)
    (out : List ResponseRecord × List (RespQueueMessage × InspectedFate))
    (h : get_responses userFilter maxMessages events = .ok out) :
    (out.1.length : Int) ≤ max 1 maxMessages
    ∧ out.1.length ≤ (events.filter (okMatches userFilter)).length
    ∧ (∀ r ∈ out.1, userFilter ≠ "all" → r.userId = userFilter)
    ∧ (∀ mf ∈ out.2, mf.2 = InspectedFate.abandoned ↔ ∃ e, mf.1.body = Except.error e) := by
  have h1 := fetch_loop_len_bound userFilter maxMessages events [] [] out h
  have h2 := fetch_loop_len_avail userFilter maxMessages events [] [] out h
  have h3 := fetch_loop_user userFilter maxMessages events [] [] out h (by simp)
  have h4 := fetch_loop_fates userFilter maxMessages events [] [] out h (by simp)
  simp only [List.length_nil, Nat.cast_zero, zero_add] at h1 h2
  exact ⟨h1, h2, h3, h4⟩

/-- C4 (witness): the amended statement at one matching readable
message. -/
theorem claim_C4_witness :
    (((([mkRecord c4wMsg "resp-a" "u1"]) : List ResponseRecord).length : Int) ≤ max 1 10)
    ∧ ([mkRecord c4wMsg "resp-a" "u1"].length
        ≤ (([RecvEvent.msg c4wMsg]).filter (okMatches "u1")).length)
    ∧ (∀ r ∈ [mkRecord c4wMsg "resp-a" "u1"], "u1" ≠ "all" → r.userId = "u1")
    ∧ (∀ mf ∈ [(c4wMsg, InspectedFate.completed)],
        mf.2 = InspectedFate.abandoned ↔ ∃ e, mf.1.body = Except.error e) :=
  claim_C4 "u1" 10 [RecvEvent.msg c4wMsg]
    ([mkRecord c4wMsg "resp-a" "u1"], [(c4wMsg, InspectedFate.completed)]) rfl

/-! ### Claim C8 -/

/-- The records the loop returns do not depend on the fates accumulated
so far. -/
theorem fetch_loop_records_ignore_fates (userFilter : String) (maxMessages : Int) :
    ∀ (events : List RecvEvent) (acc : List ResponseRecord)
      (fates1 fates2 : List (RespQueueMessage × InspectedFate)),
      (fetch_loop userFilter maxMessages acc fates1 events).map Prod.fst
        = (fetch_loop userFilter maxMessages acc fates2 events).map Prod.fst := by
  intro events
  induction events with
  | nil => intro acc f1 f2; simp [fetch_loop, Except.map]
  | cons ev rest ih =>
    intro acc f1 f2
    cases ev with
    | recvFailure err => simp [fetch_loop, Except.map]
    | msg m =>
      cases hbody : m.body with
      | error e =>
        simp only [fetch_loop, hbody]
        exact ih acc _ _
      | ok body =>
        simp only [fetch_loop, hbody]
        by_cases hc : ((if matchesFilter userFilter (m.userIdProp.getD "unknown")
            then acc ++ [mkRecord m body (m.userIdProp.getD "unknown")]
            else acc).length : Int) ≥ maxMessages
        · rw [if_pos hc, if_pos hc]
          simp [Except.map]
        · rw [if_neg hc, if_neg hc]
          exact ih _ _ _

/-- A stream made of messages only (no receive failure) always yields a
successful result. -/
theorem fetch_loop_msgs_ok (userFilter : String) (maxMessages : Int) :
    ∀ (events : List RecvEvent) (acc : List ResponseRecord)
      (fates : List (RespQueueMessage × InspectedFate)),
      (∀ ev ∈ events, ∃ m, ev = RecvEvent.msg m) →
      ∃ out, fetch_loop userFilter maxMessages acc fates events = .ok out := by
  intro events
  induction events with
  | nil => intro acc fates _; exact ⟨(acc, fates), rfl⟩
  | cons ev rest ih =>
    intro acc fates hall
    obtain ⟨m, rfl⟩ := hall ev (by simp)
    cases hbody : m.body with
    | error e =>
      obtain ⟨out, hout⟩ := ih acc (fates ++ [(m, .abandoned)]) (fun x hx => hall x (by simp [hx]))
      refine ⟨out, ?_⟩
      simp only [fetch_loop, hbody]
      exact hout
    | ok body =>
      by_cases hc : ((if matchesFilter userFilter (m.userIdProp.getD "unknown")
          then acc ++ [mkRecord m body (m.userIdProp.getD "unknown")]
          else acc).length : Int) ≥ maxMessages
      · refine ⟨((if matchesFilter userFilter (m.userIdProp.getD "unknown")
            then acc ++ [mkRecord m body (m.userIdProp.getD "unknown")]
            else acc), fates ++ [(m, .completed)]), ?_⟩
        simp only [fetch_loop, hbody]
        rw [if_pos hc]
      · obtain ⟨out, hout⟩ := ih _ _ (fun x hx => hall x (by simp [hx]))
        refine ⟨out, ?_⟩
        simp only [fetch_loop, hbody]
        rw [if_neg hc]
        exact hout

/-- Removing one unreadable message from anywhere in the stream does not
change the records the loop returns. -/
theorem fetch_loop_skip_bad (userFilter : String) (maxMessages : Int)
    (bad : RespQueueMessage) (err : String) (hbad : bad.body = Except.error err) :
    ∀ (pre post : List RecvEvent) (acc : List ResponseRecord)
      (fates1 fates2 : List (RespQueueMessage × InspectedFate)),
      (fetch_loop userFilter maxMessages acc fates1 (pre ++ RecvEvent.msg bad :: post)).map Prod.fst
        = (fetch_loop userFilter maxMessages acc fates2 (pre ++ post)).map Prod.fst := by
  intro pre
  induction pre with
  | nil =>
    intro post acc f1 f2
    simp only [List.nil_append, fetch_loop, hbad]
    exact fetch_loop_records_ignore_fates userFilter maxMessages post acc _ _
  | cons ev rest ih =>
    intro post acc f1 f2
    cases ev with
    | recvFailure e2 => simp [fetch_loop, Except.map]
    | msg m =>
      cases hbody : m.body with
      | error e =>
        simp only [List.cons_append, fetch_loop, hbody]
        exact ih post acc _ _
      | ok body =>
        simp only [List.cons_append, fetch_loop, hbody]
        by_cases hc : ((if matchesFilter userFilter (m.userIdProp.getD "unknown")
            then acc ++ [mkRecord m body (m.userIdProp.getD "unknown")]
            else acc).length : Int) ≥ maxMessages
        · rw [if_pos hc, if_pos hc]
          simp [Except.map]
        · rw [if_neg hc, if_neg hc]
          exact ih post _ _ _

/-- C8 (counterexample): one matching record is collected, then the
receive stream fails — the whole call returns the error and the collected
record is discarded, refuting the claim for stream-level read failures. -/
theorem claim_C8_counterexample :
    get_responses "all" 10 [RecvEvent.msg c8Msg]
      = .ok ([mkRecord c8Msg "r1" "u1"], [(c8Msg, InspectedFate.completed)])
    ∧ get_responses "all" 10 [RecvEvent.msg c8Msg, RecvEvent.recvFailure "boom"]
      = .error "boom" :=
  ⟨rfl, rfl⟩

/-- C8 (amended): a read failure while processing one message does not
discard the already-collected records: with an unreadable message
anywhere in an otherwise failure-free stream, the call still succeeds
and returns exactly the records of the stream without that message (the
bad message is abandoned); only a failure of the receive stream itself
aborts the call. -/
theorem claim_C8 (userFilter : String) (maxMessages : Int) (pre post : List RecvEvent)
    (bad : RespQueueMessage) (err : String) (hbad : bad.body = Except.error err)
    (hpre : ∀ ev ∈ pre, ∃ m, ev = RecvEvent.msg m)
    (hpost : ∀ ev ∈ post, ∃ m, ev = RecvEvent.msg m) :
    (∃ out, get_responses userFilter maxMessages (pre ++ RecvEvent.msg bad :: post) = .ok out)
    ∧ (get_responses userFilter maxMessages (pre ++ RecvEvent.msg bad :: post)).map Prod.fst
      = (get_responses userFilter maxMessages (pre ++ post)).map Prod.fst := by
  constructor
  · apply fetch_loop_msgs_ok
    intro ev hev
    rcases List.mem_append.mp hev with hev | hev
    · exact hpre ev hev
    · rcases List.mem_cons.mp hev with hev | hev
      · exact ⟨bad, hev⟩
      · exact hpost ev hev
  · exact fetch_loop_skip_bad userFilter maxMessages bad err hbad pre post [] [] []

/-- C8 (witness): the amended statement with one good message followed by
one unreadable message. -/
theorem claim_C8_witness :
    (∃ out, get_responses "all" 10 [RecvEvent.msg c8Msg, RecvEvent.msg c8BadMsg] = .ok out)
    ∧ (get_responses "all" 10 [RecvEvent.msg c8Msg, RecvEvent.msg c8BadMsg]).map Prod.fst
      = (get_responses "all" 10 [RecvEvent.msg c8Msg]).map Prod.fst :=
  claim_C8 "all" 10 [RecvEvent.msg c8Msg] [] c8BadMsg "decode error" rfl
    (fun ev hev => by simp only [List.mem_singleton] at hev; exact ⟨c8Msg, hev⟩)
    (fun ev hev => by simp at hev)
